import Mathlib

/-!
Verification of the RCL data ingestion pipeline and forecasting subsystem.

The definitions below are a shallow embedding of the code in
`src/data/RCL/data.py` (value parser, sheet normalizer, series loader) and of
the forecast preparation/validation logic in `src/pages/Previsao_Receitas.py`
and `src/pages/info.previsao.py`.  Machine floats are modelled as rationals,
pandas cells as an inductive `Cell` type, and raised Python exceptions as
`Except` errors.
-/

deriving instance DecidableEq for Except

namespace RCL

/-! ### Character and digit utilities -/

/-- Numeric value of a decimal digit character, `none` for non-digits. -/
def digToNat (c : Char) : Option Nat :=
  if c.isDigit then some (c.toNat - 48) else none

/-- Consume a maximal prefix of digit characters, returning their values and
the remaining characters. -/
def takeDigits : List Char → List Nat × List Char
  | [] => ([], [])
  | c :: cs =>
    match digToNat c with
    | some d => ((d :: (takeDigits cs).1), (takeDigits cs).2)
    | none => ([], c :: cs)

/-- Value of a digit list read as a base-10 numeral (most significant first). -/
def natVal (ds : List Nat) : Nat :=
  List.foldl (fun a d => 10 * a + d) 0 ds

/-- Strip leading and trailing whitespace, as Python `str.strip` /
`float`'s implicit stripping do. -/
def stripWS (s : List Char) : List Char :=
  ((s.dropWhile Char.isWhitespace).reverse.dropWhile Char.isWhitespace).reverse

/-- Read an optional leading sign, as Python numeric literals allow. -/
def readSign (s : List Char) : Int × List Char :=
  match s with
  | [] => (1, [])
  | c :: r => if c = '-' then (-1, r) else if c = '+' then (1, r) else (1, c :: r)

/-- Value contributed by the fractional digits of a decimal literal. -/
def fracVal (fds : List Nat) : ℚ :=
  (natVal fds : ℚ) / 10 ^ fds.length

/-- Exponent suffix of a Python float literal: optional sign then digits. -/
def pyExp (mant : ℚ) (r : List Char) : Option ℚ :=
  let se := readSign r
  let pe := takeDigits se.2
  if pe.1.isEmpty ∨ ¬ pe.2.isEmpty then none
  else some (mant * (10 : ℚ) ^ (se.1 * (natVal pe.1 : Int)))

/-- Core of Python `float(str)` on a stripped string: optional sign, digits
with an optional fractional part, optional exponent.  (The special forms
`inf`/`nan` and digit underscores are never produced by this pipeline and are
not modelled.) -/
def pyFloatCore (s : List Char) : Option ℚ :=
  let ps := readSign s
  let pi := takeDigits ps.2
  let pf :=
    match pi.2 with
    | '.' :: r => takeDigits r
    | _ => ([], pi.2)
  if pi.1.isEmpty ∧ pf.1.isEmpty then none
  else
    let mant : ℚ := (ps.1 : ℚ) * ((natVal pi.1 : ℚ) + fracVal pf.1)
    match pf.2 with
    | [] => some mant
    | 'e' :: r => pyExp mant r
    | 'E' :: r => pyExp mant r
    | _ => none

/-- Python `float(str)`: strip whitespace, then parse a decimal literal. -/
def pyFloat (s : List Char) : Option ℚ :=
  pyFloatCore (stripWS s)

/-- Python `int(str)`: strip whitespace, optional sign, nonempty digits. -/
def pyInt (s : List Char) : Option Int :=
  let t := stripWS s
  let ps := readSign t
  let pd := takeDigits ps.2
  if pd.1.isEmpty ∨ ¬ pd.2.isEmpty then none else some (ps.1 * (natVal pd.1 : Int))

/-- Python `str.strip()` on a `String`. -/
def pyStrip (s : String) : String :=
  ⟨stripWS s.toList⟩

/-- Python `str.split(sep)` for a one-character separator: split on every
occurrence, keeping empty pieces. -/
def splitOnChar (sep : Char) : List Char → List (List Char)
  | [] => [[]]
  | c :: r =>
    if c = sep then [] :: splitOnChar sep r
    else
      match splitOnChar sep r with
      | [] => [[c]]
      | g :: gs => (c :: g) :: gs

/-! ### The value parser (`converter_valor`, src/data/RCL/data.py lines 14-25) -/

/-- A spreadsheet cell as seen by the loader: missing (`NaN`), a string, or a
number already decoded by the reader's decimal/thousands hints. -/
inductive Cell where
  | na
  | str (s : String)
  | num (q : ℚ)
deriving DecidableEq, Repr

/-- Errors raised by the loader, mirroring the Python exceptions. -/
inductive ErroCarga where
  | nenhumArquivo
  | nomeArquivo
  | valorInvalido
  | cabecalhoData
deriving DecidableEq, Repr

/-- `str.replace(c, "")`: remove every occurrence of a character. -/
def removeChar (c : Char) (s : List Char) : List Char :=
  s.filter (fun a => a ≠ c)

/-- `str.replace(",", ".")`: turn each decimal comma into a point. -/
def virgulaParaPonto (s : List Char) : List Char :=
  s.map (fun a => if a = ',' then '.' else a)

/-- `converter_valor` (src/data/RCL/data.py lines 14-25): missing cells map
to `0`; a string containing both parentheses is stripped of them, has its
thousands dots removed and decimal comma converted, and is negated; any other
string gets the same dot/comma treatment without negation; numbers cast
through.  A `float()` failure is the `ParseError` of the spec. -/
def converter_valor : Cell → Except ErroCarga ℚ
  | .na => .ok 0
  | .str s =>
    let l := s.toList
    if '(' ∈ l ∧ ')' ∈ l then
      match pyFloat (virgulaParaPonto (removeChar '.' (removeChar ')' (removeChar '(' l)))) with
      | some q => .ok (-q)
      | none => .error .valorInvalido
    else
      match pyFloat (virgulaParaPonto (removeChar '.' l)) with
      | some q => .ok q
      | none => .error .valorInvalido
  | .num q => .ok q

/-! ### Month/year header parsing (`pd.to_datetime(..., format="%m/%Y")`) -/

/-- A first-of-month date: the `MES_ANO` field of a record. -/
structure MesAno where
  mes : Nat
  ano : Nat
deriving DecidableEq, Repr

/-- `strptime` with format `"%m/%Y"`: one or two digits forming a month in
`1..12`, a literal `/`, one to four digits forming the year, nothing left
over. -/
def parseMesAno (h : String) : Option MesAno :=
  let p1 := takeDigits h.toList
  match p1.2 with
  | '/' :: r =>
    let p2 := takeDigits r
    if p1.1.length = 0 ∨ 2 < p1.1.length then none
    else if p2.1.length = 0 ∨ 4 < p2.1.length then none
    else if ¬ p2.2.isEmpty then none
    else
      let m := natVal p1.1
      if 1 ≤ m ∧ m ≤ 12 then some ⟨m, natVal p2.1⟩ else none
  | _ => none

/-! ### Locale-formatted numerals: the input domain of claim C1

A thousands-dotted, decimal-commaed numeral such as `"1.234,56"` is described
by its digit groups (between the thousands dots) and its two decimal digits.
-/

/-- The character of a decimal digit value (values `≥ 10` never arise). -/
def digitChar (d : Nat) : Char :=
  if d = 0 then '0' else if d = 1 then '1' else if d = 2 then '2'
  else if d = 3 then '3' else if d = 4 then '4' else if d = 5 then '5'
  else if d = 6 then '6' else if d = 7 then '7' else if d = 8 then '8' else '9'

def digitChars (ds : List Nat) : List Char := ds.map digitChar

/-- The integer part of a locale numeral: digit groups joined by dots. -/
def renderGroups : List (List Nat) → List Char
  | [] => []
  | [g] => digitChars g
  | g :: g2 :: gs => digitChars g ++ '.' :: renderGroups (g2 :: gs)

/-- A full locale numeral: integer groups, decimal comma, two decimal digits. -/
def localeChars (gs : List (List Nat)) (d1 d2 : Nat) : List Char :=
  renderGroups gs ++ ',' :: [digitChar d1, digitChar d2]

/-- Valid thousands grouping: a nonempty leading group of at most three
digits, all later groups of exactly three digits, all digit values `< 10`. -/
def ValidGroups (gs : List (List Nat)) : Prop :=
  gs ≠ [] ∧ (∀ g ∈ gs, g ≠ []) ∧ (∀ g ∈ gs.tail, g.length = 3)
    ∧ (gs.headD []).length ≤ 3 ∧ ∀ d ∈ gs.flatten, d < 10

/-- The numeric value denoted by a locale numeral. -/
def valorLocale (gs : List (List Nat)) (d1 d2 : Nat) : ℚ :=
  (natVal gs.flatten : ℚ) + ((10 * d1 + d2 : Nat) : ℚ) / 100

/-! ### Lemmas about digits and parsing -/

theorem digitChar_spec (d : Nat) :
    (digitChar d).isDigit = true ∧ digitChar d ≠ '.' ∧ digitChar d ≠ ','
    ∧ digitChar d ≠ '(' ∧ digitChar d ≠ ')' ∧ digitChar d ≠ '-'
    ∧ digitChar d ≠ '+' ∧ (digitChar d).isWhitespace = false := by
  unfold digitChar
  split_ifs <;> decide

theorem digToNat_digitChar {d : Nat} (h : d < 10) : digToNat (digitChar d) = some d := by
  interval_cases d <;> decide

theorem takeDigits_append (ds : List Nat) (r : List Char) (hd : ∀ d ∈ ds, d < 10)
    (hr : ∀ c, r.head? = some c → digToNat c = none) :
    takeDigits (digitChars ds ++ r) = (ds, r) := by
  induction ds with
  | nil =>
    cases r with
    | nil => rfl
    | cons c cs =>
      simp only [digitChars, List.map_nil, List.nil_append, takeDigits, hr c rfl]
  | cons d ds ih =>
    have hd0 : d < 10 := hd d (by simp)
    have ih' := ih (fun x hx => hd x (by simp [hx]))
    simp only [digitChars, List.map_cons, List.cons_append, takeDigits,
      digToNat_digitChar hd0] at *
    simp [ih']

theorem dropWhile_eq_self_of_false {p : Char → Bool} {l : List Char}
    (h : ∀ c ∈ l, p c = false) : l.dropWhile p = l := by
  cases l with
  | nil => rfl
  | cons c cs => simp [List.dropWhile, h c (by simp)]

theorem stripWS_eq_self {l : List Char} (h : ∀ c ∈ l, c.isWhitespace = false) :
    stripWS l = l := by
  unfold stripWS
  rw [dropWhile_eq_self_of_false h,
    dropWhile_eq_self_of_false (fun c hc => h c (by simpa using hc)), List.reverse_reverse]

theorem readSign_no_sign {c : Char} {r : List Char} (h1 : c ≠ '-') (h2 : c ≠ '+') :
    readSign (c :: r) = (1, c :: r) := by
  simp [readSign, h1, h2]

theorem pyFloatCore_decimal (ids fds : List Nat) (h1 : ids ≠ [])
    (hid : ∀ d ∈ ids, d < 10) (hfd : ∀ d ∈ fds, d < 10) :
    pyFloatCore (digitChars ids ++ '.' :: digitChars fds) =
      some ((natVal ids : ℚ) + (natVal fds : ℚ) / 10 ^ fds.length) := by
  obtain ⟨d0, ids', rfl⟩ := List.exists_cons_of_ne_nil h1
  have hd0 := digitChar_spec d0
  have hsign : readSign (digitChars (d0 :: ids') ++ '.' :: digitChars fds) =
      (1, digitChars (d0 :: ids') ++ '.' :: digitChars fds) := by
    simp only [digitChars, List.map_cons, List.cons_append]
    exact readSign_no_sign hd0.2.2.2.2.2.1 hd0.2.2.2.2.2.2.1
  have htake1 : takeDigits (digitChars (d0 :: ids') ++ '.' :: digitChars fds) =
      (d0 :: ids', '.' :: digitChars fds) :=
    takeDigits_append _ _ hid (fun c hc => by
      simp only [List.head?_cons, Option.some.injEq] at hc
      subst hc; decide)
  have htake2 : takeDigits (digitChars fds ++ []) = (fds, []) :=
    takeDigits_append _ _ hfd (fun c hc => by simp at hc)
  rw [List.append_nil] at htake2
  unfold pyFloatCore
  rw [hsign]
  simp only [htake1, htake2, List.isEmpty_cons, fracVal]
  norm_num

/-- Every character of a rendered integer part is a dot or a digit char. -/
theorem renderGroups_chars (gs : List (List Nat)) :
    ∀ c ∈ renderGroups gs, c = '.' ∨ ∃ d, c = digitChar d := by
  induction gs with
  | nil =>
    intro c hc
    rw [show renderGroups [] = [] from rfl] at hc
    exact absurd hc (List.not_mem_nil c)
  | cons g rest ih =>
    cases rest with
    | nil =>
      intro c hc
      rw [show renderGroups [g] = digitChars g from rfl] at hc
      simp only [digitChars, List.mem_map] at hc
      obtain ⟨d, _, rfl⟩ := hc
      exact Or.inr ⟨d, rfl⟩
    | cons g2 gs2 =>
      intro c hc
      rw [show renderGroups (g :: g2 :: gs2) =
        digitChars g ++ '.' :: renderGroups (g2 :: gs2) from rfl] at hc
      simp only [List.mem_append, List.mem_cons] at hc
      rcases hc with hc | hc | hc
      · simp only [digitChars, List.mem_map] at hc
        obtain ⟨d, _, rfl⟩ := hc
        exact Or.inr ⟨d, rfl⟩
      · exact Or.inl hc
      · exact ih c hc

/-- Every character of a locale numeral is a dot, a comma, or a digit char. -/
theorem localeChars_chars (gs : List (List Nat)) (d1 d2 : Nat) :
    ∀ c ∈ localeChars gs d1 d2, c = '.' ∨ c = ',' ∨ ∃ d, c = digitChar d := by
  intro c hc
  simp only [localeChars, List.mem_append, List.mem_cons] at hc
  rcases hc with hc | hc | hc | hc
  · rcases renderGroups_chars gs c hc with h | h
    · exact Or.inl h
    · exact Or.inr (Or.inr h)
  · exact Or.inr (Or.inl hc)
  · exact Or.inr (Or.inr ⟨d1, hc⟩)
  · rcases hc with hc | hc
    · exact Or.inr (Or.inr ⟨d2, hc⟩)
    · exact absurd hc (List.not_mem_nil c)

/-- Dots, commas and digits are not parentheses and not whitespace. -/
theorem localeChars_not_paren_ws (gs : List (List Nat)) (d1 d2 : Nat) :
    ∀ c ∈ localeChars gs d1 d2, c ≠ '(' ∧ c ≠ ')' ∧ c.isWhitespace = false := by
  intro c hc
  rcases localeChars_chars gs d1 d2 c hc with rfl | rfl | ⟨d, rfl⟩
  · decide
  · decide
  · have h := digitChar_spec d
    exact ⟨h.2.2.2.1, h.2.2.2.2.1, h.2.2.2.2.2.2.2⟩

theorem removeChar_eq_self {c : Char} {l : List Char} (h : ∀ a ∈ l, a ≠ c) :
    removeChar c l = l :=
  List.filter_eq_self.mpr (fun a ha => by simpa using h a ha)

theorem removeChar_append (c : Char) (a b : List Char) :
    removeChar c (a ++ b) = removeChar c a ++ removeChar c b :=
  List.filter_append ..

theorem virgulaParaPonto_append (a b : List Char) :
    virgulaParaPonto (a ++ b) = virgulaParaPonto a ++ virgulaParaPonto b :=
  List.map_append ..

theorem removeChar_dot_digitChars (ds : List Nat) :
    removeChar '.' (digitChars ds) = digitChars ds :=
  removeChar_eq_self (fun a ha => by
    simp only [digitChars, List.mem_map] at ha
    obtain ⟨d, _, rfl⟩ := ha
    exact (digitChar_spec d).2.1)

/-- Removing the thousands dots from the rendered integer part leaves exactly
the concatenated digit characters. -/
theorem removeChar_dot_renderGroups (gs : List (List Nat)) :
    removeChar '.' (renderGroups gs) = digitChars gs.flatten := by
  induction gs with
  | nil => rfl
  | cons g rest ih =>
    cases rest with
    | nil =>
      rw [show renderGroups [g] = digitChars g from rfl, removeChar_dot_digitChars]
      simp [digitChars]
    | cons g2 gs2 =>
      rw [show renderGroups (g :: g2 :: gs2) =
        digitChars g ++ '.' :: renderGroups (g2 :: gs2) from rfl]
      rw [show ('.' :: renderGroups (g2 :: gs2) : List Char) =
        ['.'] ++ renderGroups (g2 :: gs2) from rfl]
      rw [removeChar_append, removeChar_append, removeChar_dot_digitChars, ih,
        show removeChar '.' ['.'] = [] from rfl]
      simp [digitChars]

/-- Mapping commas to dots leaves digit characters unchanged. -/
theorem virgulaParaPonto_digitChars (ds : List Nat) :
    virgulaParaPonto (digitChars ds) = digitChars ds := by
  unfold virgulaParaPonto
  rw [List.map_congr_left (g := id) (fun a ha => by
    simp only [digitChars, List.mem_map] at ha
    obtain ⟨d, _, rfl⟩ := ha
    simp [(digitChar_spec d).2.2.1]), List.map_id]

/-- The cleaned-up locale numeral is exactly the decimal literal
`<digits>.<d1><d2>`. -/
theorem limpeza_localeChars (gs : List (List Nat)) (d1 d2 : Nat) :
    virgulaParaPonto (removeChar '.' (localeChars gs d1 d2)) =
      digitChars gs.flatten ++ '.' :: digitChars [d1, d2] := by
  have h0 : localeChars gs d1 d2 =
      renderGroups gs ++ ([','] ++ digitChars [d1, d2]) := by
    simp [localeChars, digitChars]
  rw [h0, removeChar_append, removeChar_append, removeChar_dot_renderGroups,
    removeChar_dot_digitChars, show removeChar '.' [','] = [','] from rfl,
    virgulaParaPonto_append, virgulaParaPonto_append, virgulaParaPonto_digitChars,
    virgulaParaPonto_digitChars, show virgulaParaPonto [','] = ['.'] from rfl]
  simp

/-- **C1.** `converter_valor` on a valid parenthesized locale numeral
`"(1.234,56)"` returns the negated value, and on the same numeral without
parentheses returns the positive value: thousands dots are stripped, the
decimal comma becomes a point, and negation happens exactly in the
parenthesized case.  (Spec 4.1 / Testable properties 1-2.) -/
theorem converter_valor_locale (gs : List (List Nat)) (d1 d2 : Nat)
    (hg : ValidGroups gs) (h1 : d1 < 10) (h2 : d2 < 10) :
    converter_valor (.str ⟨'(' :: (localeChars gs d1 d2 ++ [')'])⟩) =
      .ok (-(valorLocale gs d1 d2))
    ∧ converter_valor (.str ⟨localeChars gs d1 d2⟩) = .ok (valorLocale gs d1 d2) := by
  obtain ⟨hne, hgne, -, -, hdig⟩ := hg
  have hflat_ne : gs.flatten ≠ [] := by
    obtain ⟨g, rest, rfl⟩ := List.exists_cons_of_ne_nil hne
    have hg0 : g ≠ [] := hgne g (by simp)
    simp only [List.flatten_cons, ne_eq, List.append_eq_nil, not_and]
    intro h
    exact absurd h hg0
  have hspec := localeChars_not_paren_ws gs d1 d2
  have hld2 : ∀ d ∈ [d1, d2], d < 10 := by
    intro d hd
    rcases List.mem_cons.mp hd with rfl | hd
    · exact h1
    · rcases List.mem_singleton.mp hd with rfl
      exact h2
  have hnv : natVal [d1, d2] = 10 * d1 + d2 := by
    simp [natVal, List.foldl]
  -- the value computed by `pyFloat` on the cleaned numeral
  have hcore : pyFloat (virgulaParaPonto (removeChar '.' (localeChars gs d1 d2))) =
      some (valorLocale gs d1 d2) := by
    rw [limpeza_localeChars]
    unfold pyFloat
    rw [stripWS_eq_self (fun c hc => by
      simp only [List.mem_append, List.mem_cons] at hc
      rcases hc with hc | hc | hc
      · simp only [digitChars, List.mem_map] at hc
        obtain ⟨d, _, rfl⟩ := hc
        exact (digitChar_spec d).2.2.2.2.2.2.2
      · subst hc; decide
      · simp only [digitChars, List.mem_map] at hc
        obtain ⟨d, _, rfl⟩ := hc
        exact (digitChar_spec d).2.2.2.2.2.2.2)]
    rw [pyFloatCore_decimal gs.flatten [d1, d2] hflat_ne hdig hld2]
    unfold valorLocale
    rw [hnv]
    norm_num
  constructor
  · -- parenthesized case
    simp only [converter_valor]
    rw [show (String.mk ('(' :: (localeChars gs d1 d2 ++ [')']))).toList =
      '(' :: (localeChars gs d1 d2 ++ [')']) from rfl]
    rw [if_pos ⟨List.mem_cons_self _ _, by simp⟩]
    have e0 : removeChar '(' ('(' :: (localeChars gs d1 d2 ++ [')'])) =
        removeChar '(' (localeChars gs d1 d2 ++ [')']) := by
      simp [removeChar, List.filter_cons]
    have e1 : removeChar '(' (localeChars gs d1 d2 ++ [')']) =
        localeChars gs d1 d2 ++ [')'] := by
      rw [removeChar_append, removeChar_eq_self (fun a ha => (hspec a ha).1),
        show removeChar '(' [')'] = [')'] from rfl]
    have e2 : removeChar ')' (localeChars gs d1 d2 ++ [')']) =
        localeChars gs d1 d2 := by
      rw [removeChar_append, removeChar_eq_self (fun a ha => (hspec a ha).2.1),
        show removeChar ')' [')'] = [] from rfl, List.append_nil]
    rw [e0, e1, e2, hcore]
  · -- plain case
    simp only [converter_valor]
    rw [show (String.mk (localeChars gs d1 d2)).toList = localeChars gs d1 d2 from rfl]
    rw [if_neg (by
      rintro ⟨hmem, -⟩
      exact (hspec '(' hmem).1 rfl)]
    rw [hcore]

/-- Witness for C1 at the spec's example `"(1.234,56)"` / `"1.234,56"`. -/
theorem converter_valor_locale_witness :
    converter_valor (.str "(1.234,56)") = .ok (-(1234 + 56 / 100 : ℚ))
    ∧ converter_valor (.str "1.234,56") = .ok ((1234 + 56 / 100 : ℚ)) := by
  have h := converter_valor_locale [[1], [2, 3, 4]] 5 6
    (by unfold ValidGroups; exact ⟨by decide, by decide, by decide, by decide, by decide⟩)
    (by decide) (by decide)
  have hs1 : (⟨'(' :: (localeChars [[1], [2, 3, 4]] 5 6 ++ [')'])⟩ : String) =
      "(1.234,56)" := by decide
  have hs2 : (⟨localeChars [[1], [2, 3, 4]] 5 6⟩ : String) = "1.234,56" := by decide
  have hv : valorLocale [[1], [2, 3, 4]] 5 6 = (1234 + 56 / 100 : ℚ) := by
    norm_num [valorLocale, natVal, List.foldl]
  rw [hs1, hs2, hv] at h
  exact h

/-! ### The sheet normalizer (`carregar_rcl` per-file body, src/data/RCL/data.py
lines 41-99)

A loaded spreadsheet is modelled column-major: the `ESPECIFICAÇÃO` column (a
text column, so each cell is a string or missing) plus the remaining columns,
each a raw header with its cells.  In a `DataFrame` all columns share one row
index, so rows are aligned by position. -/

structure Planilha where
  espec : List (Option String)
  cols : List (String × List Cell)

/-- The columns dropped by `df.drop(columns=["TOTAL", "Previsão"])`. -/
def COLUNAS_EXCLUIDAS : List String := ["TOTAL", "Previsão"]

/-- `df.columns = df.columns.str.strip()`. -/
def limparCabecalhos (p : Planilha) : Planilha :=
  { p with cols := p.cols.map (fun c => (pyStrip c.1, c.2)) }

/-- `df.drop(columns=["TOTAL", "Previsão"], errors="ignore")`. -/
def removerColunas (p : Planilha) : Planilha :=
  { p with cols := p.cols.filter (fun c => c.1 ∉ COLUNAS_EXCLUIDAS) }

/-- A row is entirely empty when its `ESPECIFICAÇÃO` cell and every other
cell are missing. -/
def linhaVazia (p : Planilha) (i : Nat) : Bool :=
  (p.espec.getD i none).isNone && p.cols.all (fun c => c.2.getD i .na == .na)

/-- `df.dropna(how="all")`: keep exactly the row positions that are not
entirely empty, in every column. -/
def removerLinhasVazias (p : Planilha) : Planilha :=
  let keep := (List.range p.espec.length).filter (fun i => ¬ linhaVazia p i)
  { espec := keep.map (fun i => p.espec.getD i none),
    cols := p.cols.map (fun c => (c.1, keep.map (fun i => c.2.getD i .na))) }

/-- The full column/row cleaning prefix of the per-file loader (lines 52-58). -/
def limpar (p : Planilha) : Planilha :=
  removerLinhasVazias (removerColunas (limparCabecalhos p))

/-- `astype(str)` on an object column: missing values print as `"nan"`. -/
def pyStrOpt : Option String → String
  | none => "nan"
  | some s => s

/-- Line 61-65: `df["ESPECIFICAÇÃO"].astype(str).str.strip()`. -/
def especLimpa (p : Planilha) : List String :=
  p.espec.map (fun e => pyStrip (pyStrOpt e))

/-- Lines 68-71: the month columns are those whose header contains `/`. -/
def colunas_meses (p : Planilha) : List (String × List Cell) :=
  p.cols.filter (fun c => '/' ∈ c.1.toList)

/-- Lines 74-79: `df.melt` over the month columns, column-major as pandas
emits it: one `(label, header, cell)` triple per row of each month column. -/
def melt (p : Planilha) : List (String × String × Cell) :=
  (colunas_meses p).flatMap
    (fun c => ((especLimpa p).zip c.2).map (fun ev => (ev.1, c.1, ev.2)))

/-- A record of the canonical long table. -/
structure Registro where
  especificacao : String
  mes_ano : MesAno
  valor : ℚ
  ano : Int
deriving DecidableEq, Repr

/-- Elementwise application of a fallible function, stopping at the first
failure — how a pandas `apply`/`to_datetime` surfaces a raised exception. -/
def mapExcept (f : α → Except ε β) : List α → Except ε (List β)
  | [] => .ok []
  | a :: l =>
    match f a with
    | .error e => .error e
    | .ok b =>
      match mapExcept f l with
      | .error e => .error e
      | .ok bs => .ok (b :: bs)

/-- Line 82: apply `converter_valor` to the `VALOR` entry of one melted
triple, keeping label and header. -/
def converterTrio (t : String × String × Cell) : Except ErroCarga (String × String × ℚ) :=
  (converter_valor t.2.2).map (fun q => (t.1, t.2.1, q))

/-- Lines 84-97 for one row of the long table: tag the file-derived year,
re-strip the label, and parse the `MES_ANO` header with `%m/%Y`. -/
def montarRegistro (ano : Int) (t : String × String × ℚ) : Except ErroCarga Registro :=
  match parseMesAno t.2.1 with
  | some d => .ok { especificacao := pyStrip t.1, mes_ano := d, valor := t.2.2, ano := ano }
  | none => .error .cabecalhoData

/-- The per-file loader body (src/data/RCL/data.py lines 44-99): clean the
sheet, melt the month columns, convert every `VALOR` cell (line 82), then
build the records (lines 84-97). -/
def carregar_arquivo (ano : Int) (p0 : Planilha) : Except ErroCarga (List Registro) :=
  match mapExcept converterTrio (melt (limpar p0)) with
  | .error e => .error e
  | .ok comValor => mapExcept (montarRegistro ano) comValor

/-! ### The series loader (src/data/RCL/data.py lines 28-105) -/

/-- Line 42: `ano = int(arquivo.stem.split("-")[1])`.  A missing segment or a
failing `int()` is the filename error. -/
def extrair_ano (stem : String) : Except ErroCarga Int :=
  match (splitOnChar '-' stem.toList).get? 1 with
  | none => .error .nomeArquivo
  | some seg =>
    match pyInt seg with
    | some n => .ok n
    | none => .error .nomeArquivo

/-- The canonical relabeling table `RENOMEANDO_COLUNAS` (lines 6-10). -/
def RENOMEANDO_COLUNAS : List (String × String) :=
  [("RECEITA CORRENTE LÍQUIDA (I-II)", "RECEITA CORRENTE LÍQUIDA (III) = (I - II)"),
   ("Outras receitas tributárias", "Outros Impostos, Taxas e Contribuições de Melhoria"),
   ("Receita tributária", "Impostos, Taxas e Contribuições de Melhoria")]

/-- `Series.replace(dict)` on one label: keys map to their value, anything
else passes through unchanged. -/
def aplicar_renomeacao (s : String) : String :=
  match List.lookup s RENOMEANDO_COLUNAS with
  | some v => v
  | none => s

/-- A discovered dataset file: its filename stem and its sheet.  The
directory is abstracted as the already-globbed, sorted file list; an absent
directory (`FileNotFoundError`) is outside the embedding. -/
structure Arquivo where
  stem : String
  planilha : Planilha

/-- Load one discovered file: year from the stem, then the sheet. -/
def carregarArquivoCompleto (a : Arquivo) : Except ErroCarga (List Registro) :=
  match extrair_ano a.stem with
  | .error e => .error e
  | .ok ano => carregar_arquivo ano a.planilha

/-- `carregar_rcl` (lines 28-105): for each file extract the year from the
stem and normalize the sheet; concatenate everything; apply the relabeling
table to the `ESPECIFICACAO` of every record. -/
def carregar_rcl (arquivos : List Arquivo) : Except ErroCarga (List Registro) :=
  if arquivos.isEmpty then .error .nenhumArquivo
  else
    match mapExcept carregarArquivoCompleto arquivos with
    | .error e => .error e
    | .ok dfs => .ok (dfs.flatten.map
        (fun r => { r with especificacao := aplicar_renomeacao r.especificacao }))

/-! ### Lemmas about the loader -/

theorem mapExcept_ok_length {α β ε : Type} {f : α → Except ε β} {xs : List α}
    {ys : List β} (h : mapExcept f xs = .ok ys) : ys.length = xs.length := by
  induction xs generalizing ys with
  | nil =>
    simp only [mapExcept, Except.ok.injEq] at h
    subst h
    rfl
  | cons a l ih =>
    rw [mapExcept] at h
    cases hfa : f a with
    | error e => rw [hfa] at h; exact absurd h (by simp)
    | ok b =>
      rw [hfa] at h
      cases hml : mapExcept f l with
      | error e => rw [hml] at h; exact absurd h (by simp)
      | ok bs =>
        rw [hml] at h
        simp only [Except.ok.injEq] at h
        subst h
        simp [ih hml]

/-- Every output of a successful `mapExcept` comes from some input. -/
theorem mapExcept_ok_mem {α β ε : Type} {f : α → Except ε β} {xs : List α}
    {ys : List β} (h : mapExcept f xs = .ok ys) :
    ∀ y ∈ ys, ∃ x ∈ xs, f x = .ok y := by
  induction xs generalizing ys with
  | nil =>
    simp only [mapExcept, Except.ok.injEq] at h
    subst h
    intro y hy
    exact absurd hy (List.not_mem_nil y)
  | cons a l ih =>
    rw [mapExcept] at h
    cases hfa : f a with
    | error e => rw [hfa] at h; exact absurd h (by simp)
    | ok b =>
      rw [hfa] at h
      cases hml : mapExcept f l with
      | error e => rw [hml] at h; exact absurd h (by simp)
      | ok bs =>
        rw [hml] at h
        simp only [Except.ok.injEq] at h
        subst h
        intro y hy
        rcases List.mem_cons.mp hy with rfl | hy
        · exact ⟨a, List.mem_cons_self a l, hfa⟩
        · obtain ⟨x, hx, hfx⟩ := ih hml y hy
          exact ⟨x, List.mem_cons_of_mem a hx, hfx⟩

/-- Every input of a successful `mapExcept` produced some output. -/
theorem mapExcept_ok_forall {α β ε : Type} {f : α → Except ε β} {xs : List α}
    {ys : List β} (h : mapExcept f xs = .ok ys) :
    ∀ x ∈ xs, ∃ y ∈ ys, f x = .ok y := by
  induction xs generalizing ys with
  | nil =>
    intro x hx
    exact absurd hx (List.not_mem_nil x)
  | cons a l ih =>
    rw [mapExcept] at h
    cases hfa : f a with
    | error e => rw [hfa] at h; exact absurd h (by simp)
    | ok b =>
      rw [hfa] at h
      cases hml : mapExcept f l with
      | error e => rw [hml] at h; exact absurd h (by simp)
      | ok bs =>
        rw [hml] at h
        simp only [Except.ok.injEq] at h
        subst h
        intro x hx
        rcases List.mem_cons.mp hx with rfl | hx
        · exact ⟨b, List.mem_cons_self b bs, hfa⟩
        · obtain ⟨y, hy, hfy⟩ := ih hml x hx
          exact ⟨y, List.mem_cons_of_mem b hy, hfy⟩

/-- If any input fails, the whole `mapExcept` fails. -/
theorem mapExcept_error_of_mem {α β ε : Type} {f : α → Except ε β} {xs : List α}
    {x : α} (hx : x ∈ xs) {e : ε} (hfx : f x = .error e) :
    ∃ e2, mapExcept f xs = .error e2 := by
  induction xs with
  | nil => exact absurd hx (List.not_mem_nil x)
  | cons a l ih =>
    rw [mapExcept]
    cases hfa : f a with
    | error e3 => exact ⟨e3, rfl⟩
    | ok b =>
      rcases List.mem_cons.mp hx with rfl | hx2
      · rw [hfa] at hfx
        exact absurd hfx (by simp)
      · obtain ⟨e2, he2⟩ := ih hx2
        rw [he2]
        exact ⟨e2, rfl⟩

theorem sum_map_const_length {α : Type} (l : List α) (k : Nat) :
    (l.map (fun _ => k)).sum = l.length * k := by
  induction l with
  | nil => simp
  | cons a t ih => simp [ih, Nat.succ_mul, Nat.add_comm]

/-- After `limpar`, every column has exactly one cell per kept row. -/
theorem limpar_cols_length (p0 : Planilha) :
    ∀ c ∈ (limpar p0).cols, c.2.length = (limpar p0).espec.length := by
  intro c hc
  unfold limpar removerLinhasVazias at *
  simp only [List.mem_map] at hc
  obtain ⟨c0, -, rfl⟩ := hc
  simp

theorem especLimpa_length (p : Planilha) : (especLimpa p).length = p.espec.length :=
  List.length_map ..

/-- The melt of an aligned sheet has one triple per (row, month column). -/
theorem melt_length (p : Planilha)
    (hal : ∀ c ∈ p.cols, c.2.length = p.espec.length) :
    (melt p).length = p.espec.length * (colunas_meses p).length := by
  unfold melt
  rw [List.length_flatMap]
  rw [List.map_congr_left (g := fun _ => p.espec.length) (fun c hc => by
    have hcl : c.2.length = p.espec.length :=
      hal c (List.mem_of_mem_filter hc)
    simp [List.length_zip, especLimpa_length, hcl])]
  rw [sum_map_const_length, Nat.mul_comm]

/-- Every melted triple's header is the header of some month column. -/
theorem melt_mem_header (p : Planilha) (t : String × String × Cell)
    (ht : t ∈ melt p) : ∃ c ∈ colunas_meses p, t.2.1 = c.1 := by
  unfold melt at ht
  rw [List.mem_flatMap] at ht
  obtain ⟨c, hc, hmem⟩ := ht
  rw [List.mem_map] at hmem
  obtain ⟨ev, -, rfl⟩ := hmem
  exact ⟨c, hc, rfl⟩

/-- Characterization of a record produced by the per-file loader: its year is
the file-derived year and its date is the parse of one month-column header. -/
theorem carregar_arquivo_ok_mem {ano : Int} {p0 : Planilha} {recs : List Registro}
    (h : carregar_arquivo ano p0 = .ok recs) :
    ∀ r ∈ recs, r.ano = ano
      ∧ ∃ c ∈ colunas_meses (limpar p0), parseMesAno c.1 = some r.mes_ano := by
  unfold carregar_arquivo at h
  cases h1 : mapExcept converterTrio (melt (limpar p0)) with
  | error e => rw [h1] at h; exact absurd h (by simp)
  | ok comValor =>
    rw [h1] at h
    intro r hr
    obtain ⟨v, hv, hfv⟩ := mapExcept_ok_mem h r hr
    unfold montarRegistro at hfv
    cases hpd : parseMesAno v.2.1 with
    | none => rw [hpd] at hfv; exact absurd hfv (by simp)
    | some d =>
      rw [hpd] at hfv
      simp only [Except.ok.injEq] at hfv
      obtain ⟨t, htm, hft⟩ := mapExcept_ok_mem h1 v hv
      unfold converterTrio at hft
      cases hcv : converter_valor t.2.2 with
      | error e => rw [hcv] at hft; exact absurd hft (by simp [Except.map])
      | ok q =>
        rw [hcv] at hft
        simp only [Except.map, Except.ok.injEq] at hft
        obtain ⟨c, hcmem, hhd⟩ := melt_mem_header _ t htm
        refine ⟨by rw [← hfv], c, hcmem, ?_⟩
        rw [← hhd, ← hfv]
        show parseMesAno t.2.1 = some d
        rw [← hft] at hpd
        exact hpd

/-- Count of records produced by the per-file loader. -/
theorem carregar_arquivo_ok_length {ano : Int} {p0 : Planilha} {recs : List Registro}
    (h : carregar_arquivo ano p0 = .ok recs) :
    recs.length = (limpar p0).espec.length * (colunas_meses (limpar p0)).length := by
  unfold carregar_arquivo at h
  cases h1 : mapExcept converterTrio (melt (limpar p0)) with
  | error e => rw [h1] at h; exact absurd h (by simp)
  | ok comValor =>
    rw [h1] at h
    rw [mapExcept_ok_length h, mapExcept_ok_length h1,
      melt_length _ (limpar_cols_length p0)]

/-- Characterization of a record of the full loader: it is the relabeling of
a per-file record whose year came from that file's stem and whose date parses
one of that file's month-column headers. -/
theorem carregar_rcl_ok_mem {arquivos : List Arquivo} {recs : List Registro}
    (h : carregar_rcl arquivos = .ok recs) :
    ∀ r ∈ recs, ∃ a ∈ arquivos, ∃ y, extrair_ano a.stem = .ok y ∧
      ∃ r0 : Registro, r = { r0 with especificacao := aplicar_renomeacao r0.especificacao }
        ∧ r0.ano = y
        ∧ ∃ c ∈ colunas_meses (limpar a.planilha), parseMesAno c.1 = some r0.mes_ano := by
  unfold carregar_rcl at h
  by_cases he : arquivos.isEmpty
  · rw [if_pos he] at h
    exact absurd h (by simp)
  · rw [if_neg he] at h
    cases h1 : mapExcept carregarArquivoCompleto arquivos with
    | error e => rw [h1] at h; exact absurd h (by simp)
    | ok dfs =>
      rw [h1] at h
      simp only [Except.ok.injEq] at h
      subst h
      intro r hr
      rw [List.mem_map] at hr
      obtain ⟨r0, hr0, rfl⟩ := hr
      rw [List.mem_flatten] at hr0
      obtain ⟨df, hdf, hr0df⟩ := hr0
      obtain ⟨a, ha, hfa⟩ := mapExcept_ok_mem h1 df hdf
      unfold carregarArquivoCompleto at hfa
      cases hy : extrair_ano a.stem with
      | error e => rw [hy] at hfa; exact absurd hfa (by simp)
      | ok y =>
        rw [hy] at hfa
        obtain ⟨hano, c, hcmem, hpd⟩ := carregar_arquivo_ok_mem hfa r0 hr0df
        exact ⟨a, ha, y, hy, r0, rfl, hano, c, hcmem, hpd⟩

/-- **C2.** A normalized file yields exactly one record per (surviving
specification row, month column) pair, and every record's year is the year
parsed from the file's name — whatever year any month header carries.
(Spec 4.2 step 7 / Testable properties 3.) -/
theorem normalizar_contagem_e_ano (a : Arquivo) (y : Int) (recs : List Registro)
    (hy : extrair_ano a.stem = .ok y)
    (h : carregar_arquivo y a.planilha = .ok recs) :
    recs.length =
      (limpar a.planilha).espec.length * (colunas_meses (limpar a.planilha)).length
    ∧ ∀ r ∈ recs, r.ano = y :=
  ⟨carregar_arquivo_ok_length h, fun r hr => (carregar_arquivo_ok_mem h r hr).1⟩

/-- The 2-row example sheet: a `TOTAL` column to drop, a padded header to
trim, and a month header whose year differs from the file year. -/
def planilhaExemplo : Planilha :=
  Planilha.mk [some "IPTU", some "ISS"]
    [("TOTAL", [Cell.num 1, Cell.num 2]),
     (" 01/2020 ", [Cell.num 5, Cell.num 6]),
     ("02/2021", [Cell.num 7, Cell.num 8])]

def registrosExemplo : List Registro :=
  [{ especificacao := "IPTU", mes_ano := ⟨1, 2020⟩, valor := 5, ano := 2020 },
   { especificacao := "ISS", mes_ano := ⟨1, 2020⟩, valor := 6, ano := 2020 },
   { especificacao := "IPTU", mes_ano := ⟨2, 2021⟩, valor := 7, ano := 2020 },
   { especificacao := "ISS", mes_ano := ⟨2, 2021⟩, valor := 8, ano := 2020 }]

/-- Witness for C2 on the example sheet (2 rows × 2 month columns). -/
theorem normalizar_contagem_e_ano_witness :
    registrosExemplo.length =
      (limpar planilhaExemplo).espec.length * (colunas_meses (limpar planilhaExemplo)).length
    ∧ ∀ r ∈ registrosExemplo, r.ano = 2020 :=
  normalizar_contagem_e_ano ⟨"RCL-2020", planilhaExemplo⟩ 2020 registrosExemplo
    (by decide) (by decide)

/-- **C3 counterexample.** A file named `RCL-2020` with month header
`01/2021` produces a record with `ano = 2020` but `mes_ano.ano = 2021`:
the claimed invariant `year == month_year.year` fails on the loader's own
output. -/
theorem ano_mes_ano_contraexemplo :
    carregar_rcl [⟨"RCL-2020", Planilha.mk [some "IPTU"] [("01/2021", [Cell.num 5])]⟩]
      = .ok [{ especificacao := "IPTU", mes_ano := ⟨1, 2021⟩, valor := 5, ano := 2020 }]
    ∧ ¬ ((2020 : Int) = ((2021 : Nat) : Int)) :=
  ⟨by decide, by decide⟩

/-- **C3 (amended).** The invariant `year == month_year.year` holds exactly
for files whose month-column headers carry the file's declared year: under
that hypothesis every loaded record satisfies it.  (The code never enforces
it; see the counterexample.) -/
theorem ano_igual_ano_do_mes (arquivos : List Arquivo) (recs : List Registro)
    (hcab : ∀ a ∈ arquivos, ∀ y, extrair_ano a.stem = .ok y →
      ∀ c ∈ colunas_meses (limpar a.planilha), ∀ d, parseMesAno c.1 = some d →
        (d.ano : Int) = y)
    (h : carregar_rcl arquivos = .ok recs) :
    ∀ r ∈ recs, r.ano = (r.mes_ano.ano : Int) := by
  intro r hr
  obtain ⟨a, ha, y, hy, r0, rfl, hano, c, hcmem, hpd⟩ := carregar_rcl_ok_mem h r hr
  have hyr : (r0.mes_ano.ano : Int) = y := hcab a ha y hy c hcmem r0.mes_ano hpd
  show r0.ano = (r0.mes_ano.ano : Int)
  rw [hano, hyr]

/-- Witness for the amended C3 on a single conforming file. -/
theorem ano_igual_ano_do_mes_witness :
    (Registro.mk "IPTU" ⟨1, 2020⟩ 5 2020).ano
      = ((Registro.mk "IPTU" ⟨1, 2020⟩ 5 2020).mes_ano.ano : Int) :=
  ano_igual_ano_do_mes
    [⟨"RCL-2020", Planilha.mk [some "IPTU"] [("01/2020", [Cell.num 5])]⟩]
    [{ especificacao := "IPTU", mes_ano := ⟨1, 2020⟩, valor := 5, ano := 2020 }]
    (by
      intro a ha y hy c hc d hd
      rw [List.mem_singleton] at ha
      subst ha
      have h2020 : y = 2020 := by
        have h0 : extrair_ano "RCL-2020" = .ok 2020 := by decide
        have := h0.symm.trans hy
        exact (Except.ok.inj this).symm
      have hcs : c = ("01/2020", [Cell.num 5]) := by
        have hlist : colunas_meses (limpar (Planilha.mk [some "IPTU"]
            [("01/2020", [Cell.num 5])])) = [("01/2020", [Cell.num 5])] := by decide
        rw [hlist, List.mem_singleton] at hc
        exact hc
      subst hcs
      have hds : d = ⟨1, 2020⟩ := by
        have h0 : parseMesAno "01/2020" = some ⟨1, 2020⟩ := by decide
        have := h0.symm.trans hd
        exact (Option.some.inj this).symm
      subst hds h2020
      rfl)
    (by decide)
    { especificacao := "IPTU", mes_ano := ⟨1, 2020⟩, valor := 5, ano := 2020 }
    (List.mem_singleton.mpr rfl)

/-! ### Relabeling (claim C4) -/

/-- `aplicar_renomeacao` as an explicit three-way case split. -/
theorem aplicar_renomeacao_eq (s : String) :
    aplicar_renomeacao s =
      if s = "RECEITA CORRENTE LÍQUIDA (I-II)" then
        "RECEITA CORRENTE LÍQUIDA (III) = (I - II)"
      else if s = "Outras receitas tributárias" then
        "Outros Impostos, Taxas e Contribuições de Melhoria"
      else if s = "Receita tributária" then
        "Impostos, Taxas e Contribuições de Melhoria"
      else s := by
  unfold aplicar_renomeacao RENOMEANDO_COLUNAS
  rcases eq_or_ne s "RECEITA CORRENTE LÍQUIDA (I-II)" with rfl | n1
  · simp [List.lookup]
  · rcases eq_or_ne s "Outras receitas tributárias" with rfl | n2
    · simp [List.lookup]
    · rcases eq_or_ne s "Receita tributária" with rfl | n3
      · simp [List.lookup]
      · simp only [List.lookup, beq_eq_false_iff_ne.mpr n1, beq_eq_false_iff_ne.mpr n2,
          beq_eq_false_iff_ne.mpr n3]
        rw [if_neg n1, if_neg n2, if_neg n3]

/-- The result of relabeling is never itself a key of the table. -/
theorem aplicar_renomeacao_not_key (s : String) :
    aplicar_renomeacao s ∉ RENOMEANDO_COLUNAS.map Prod.fst := by
  intro hv
  rw [aplicar_renomeacao_eq] at hv
  split_ifs at hv with h1 h2 h3
  · exact absurd hv (by decide)
  · exact absurd hv (by decide)
  · exact absurd hv (by decide)
  · simp only [RENOMEANDO_COLUNAS, List.map_cons, List.map_nil, List.mem_cons] at hv
    rcases hv with hv | hv | hv | hv
    · exact h1 hv
    · exact h2 hv
    · exact h3 hv
    · exact absurd hv (List.not_mem_nil s)

/-- **C4.** Relabeling is total and stable: a label that is a key of
`RENOMEANDO_COLUNAS` maps to its value, any other label passes through
unchanged, and hence no record returned by the loader carries a key
(pre-canonical) label.  (Spec 4.3 step 4 / Testable properties 5.) -/
theorem renomeacao_total_e_estavel :
    (∀ s v, (s, v) ∈ RENOMEANDO_COLUNAS → aplicar_renomeacao s = v)
    ∧ (∀ s, s ∉ RENOMEANDO_COLUNAS.map Prod.fst → aplicar_renomeacao s = s)
    ∧ ∀ arquivos recs, carregar_rcl arquivos = .ok recs →
        ∀ r ∈ recs, r.especificacao ∉ RENOMEANDO_COLUNAS.map Prod.fst := by
  refine ⟨?_, ?_, ?_⟩
  · intro s v h
    simp only [RENOMEANDO_COLUNAS, List.mem_cons, Prod.mk.injEq] at h
    rcases h with ⟨rfl, rfl⟩ | ⟨rfl, rfl⟩ | ⟨rfl, rfl⟩ | h
    · decide
    · decide
    · decide
    · exact absurd h (List.not_mem_nil _)
  · intro s hs
    rw [aplicar_renomeacao_eq]
    rw [if_neg (fun h => hs (by rw [h]; decide)),
      if_neg (fun h => hs (by rw [h]; decide)),
      if_neg (fun h => hs (by rw [h]; decide))]
  · intro arquivos recs h r hr
    obtain ⟨a, ha, y, hy, r0, rfl, -⟩ := carregar_rcl_ok_mem h r hr
    exact aplicar_renomeacao_not_key r0.especificacao

/-- Witness for C4: a key label is mapped, a non-key label is unchanged. -/
theorem renomeacao_total_e_estavel_witness :
    aplicar_renomeacao "Receita tributária" =
      "Impostos, Taxas e Contribuições de Melhoria"
    ∧ aplicar_renomeacao "IPTU" = "IPTU" :=
  ⟨renomeacao_total_e_estavel.1 "Receita tributária" _ (by decide),
   renomeacao_total_e_estavel.2.1 "IPTU" (by decide)⟩

/-! ### Filename year extraction (claim C7) -/

theorem splitOnChar_of_not_mem {sep : Char} {l : List Char} (h : sep ∉ l) :
    splitOnChar sep l = [l] := by
  induction l with
  | nil => rfl
  | cons c r ih =>
    rw [splitOnChar, if_neg (fun hc => h (by rw [← hc]; exact List.mem_cons_self c r)),
      ih (fun hr => h (List.mem_cons_of_mem c hr))]

/-- **C7 counterexample.** The filename stem `RCL-12` has a year segment
`"12"` that is *not* a valid 4-digit integer, yet year extraction does not
fail: it returns `12`.  The code only fails when `int()` fails. -/
theorem extrair_ano_contraexemplo :
    extrair_ano "RCL-12" = .ok 12 ∧ ("12" : String).length = 2 :=
  ⟨by decide, by decide⟩

/-- **C7 (amended).** For a stem `RCL-<seg>` with a dash-free segment, year
extraction fails (the `FilenameFormatError` of the spec, a `ValueError` in
the code) exactly when the segment is not a valid Python integer literal,
and otherwise the parsed integer — 4-digit or not — becomes the declared
year.  (Spec 4.2 step 1.) -/
theorem extrair_ano_segmento (seg : List Char) (hseg : '-' ∉ seg) :
    extrair_ano ⟨'R' :: 'C' :: 'L' :: '-' :: seg⟩ =
      match pyInt seg with
      | some n => Except.ok n
      | none => Except.error ErroCarga.nomeArquivo := by
  have hsplit : splitOnChar '-' ('R' :: 'C' :: 'L' :: '-' :: seg) =
      ['R' :: 'C' :: 'L' :: [], seg] := by
    rw [splitOnChar, if_neg (by decide), splitOnChar, if_neg (by decide),
      splitOnChar, if_neg (by decide), splitOnChar, if_pos rfl,
      splitOnChar_of_not_mem hseg]
  unfold extrair_ano
  rw [show (⟨'R' :: 'C' :: 'L' :: '-' :: seg⟩ : String).toList =
    'R' :: 'C' :: 'L' :: '-' :: seg from rfl]
  rw [hsplit]
  rfl

/-- Witness for the amended C7 at the well-formed stem `RCL-2020`. -/
theorem extrair_ano_segmento_witness :
    extrair_ano ⟨'R' :: 'C' :: 'L' :: '-' :: "2020".toList⟩ =
      match pyInt "2020".toList with
      | some n => Except.ok n
      | none => Except.error ErroCarga.nomeArquivo :=
  extrair_ano_segmento "2020".toList (by decide)

/-! ### Malformed month headers (claim C8) -/

/-- **C8 counterexample.** A sheet with one good month column `01/2020` and
one malformed slash header `N/A` does not return the good column's records
with a warning: the whole file load fails with the date-format error. -/
theorem cabecalho_invalido_contraexemplo :
    carregar_arquivo 2020
        (Planilha.mk [some "IPTU"] [("01/2020", [Cell.num 5]), ("N/A", [Cell.num 1])])
      = .error .cabecalhoData := by
  decide

/-- **C8 (amended).** A month column (a kept column whose header contains
`/`) whose header does not parse as `MM/YYYY` makes the per-file loader fail
for the whole file whenever the sheet has any surviving row: no records are
returned and no column is skipped.  (Spec 4.2 failure modes, resolved to the
abort behavior the code actually has.) -/
theorem cabecalho_invalido_aborta (ano : Int) (p0 : Planilha)
    (c : String × List Cell) (hc : c ∈ colunas_meses (limpar p0))
    (hbad : parseMesAno c.1 = none) (hrows : (limpar p0).espec ≠ []) :
    ∃ e, carregar_arquivo ano p0 = .error e := by
  -- the melt block of column `c` is nonempty
  have hlen : c.2.length = (limpar p0).espec.length :=
    limpar_cols_length p0 c (List.mem_of_mem_filter hc)
  have hzip : ((especLimpa (limpar p0)).zip c.2) ≠ [] := by
    have : ((especLimpa (limpar p0)).zip c.2).length = (limpar p0).espec.length := by
      rw [List.length_zip, especLimpa_length, hlen, Nat.min_self]
    intro hnil
    rw [hnil] at this
    exact hrows (List.length_eq_zero.mp this.symm)
  obtain ⟨ev, hev⟩ := List.exists_mem_of_ne_nil _ hzip
  have htm : (ev.1, c.1, ev.2) ∈ melt (limpar p0) := by
    unfold melt
    rw [List.mem_flatMap]
    exact ⟨c, hc, List.mem_map.mpr ⟨ev, hev, rfl⟩⟩
  unfold carregar_arquivo
  cases h1 : mapExcept converterTrio (melt (limpar p0)) with
  | error e => exact ⟨e, rfl⟩
  | ok comValor =>
    obtain ⟨v, hv, hfv⟩ := mapExcept_ok_forall h1 _ htm
    have hvhd : v.2.1 = c.1 := by
      unfold converterTrio at hfv
      cases hcv : converter_valor (ev.1, c.1, ev.2).2.2 with
      | error e => rw [hcv] at hfv; exact absurd hfv (by simp [Except.map])
      | ok q =>
        rw [hcv] at hfv
        simp only [Except.map, Except.ok.injEq] at hfv
        rw [← hfv]
    have herr : montarRegistro ano v = .error .cabecalhoData := by
      unfold montarRegistro
      rw [hvhd, hbad]
    obtain ⟨e2, he2⟩ := mapExcept_error_of_mem hv herr
    exact ⟨e2, he2⟩

/-- Witness for the amended C8: a single bad month column aborts the file. -/
theorem cabecalho_invalido_aborta_witness :
    ∃ e, carregar_arquivo 2020 (Planilha.mk [some "IPTU"] [("N/A", [Cell.num 1])])
      = .error e :=
  cabecalho_invalido_aborta 2020 _ ("N/A", [Cell.num 1]) (by decide) (by decide) (by decide)

/-! ### Forecast preparation and validation
(src/pages/Previsao_Receitas.py lines 95-196, src/pages/info.previsao.py
lines 138-288) -/

inductive ErroPrevisao where
  | dadosInsuficientes
deriving DecidableEq, Repr

/-- Month index of a first-of-month date.  The dates of the prepared series
are all month starts, so pandas timestamp order and month arithmetic
(`pd.DateOffset(months=n)`) coincide with this index. -/
def idx (d : MesAno) : Int := 12 * (d.ano : Int) + ((d.mes : Int) - 1)

/-- Stable insertion by ascending date, modelling `sort_values("ds")`. -/
def inserirPorData (o : MesAno × ℚ) : List (MesAno × ℚ) → List (MesAno × ℚ)
  | [] => [o]
  | b :: t => if idx b.1 ≤ idx o.1 then b :: inserirPorData o t else o :: b :: t

def ordenarPorData : List (MesAno × ℚ) → List (MesAno × ℚ)
  | [] => []
  | a :: t => inserirPorData a (ordenarPorData t)

/-- Previsao_Receitas.py lines 95-104: filter to the selected specification,
project to `(ds, y)`, sort ascending by date, drop values `≤ 0`. -/
def preparar_serie (df : List Registro) (espec : String) : List (MesAno × ℚ) :=
  (ordenarPorData ((df.filter (fun r => r.especificacao = espec)).map
      (fun r => (r.mes_ano, r.valor)))).filter (fun o => 0 < o.2)

/-- Lines 107-109: the 24-observation gate (`st.error` + `st.stop`). -/
def validar_minimo (xs : List (MesAno × ℚ)) : Except ErroPrevisao Unit :=
  if xs.length < 24 then .error .dadosInsuficientes else .ok ()

/-- **C5.** With fewer than 24 observations surviving the specification
filter and the positivity filter, the forecast raises the insufficient-data
error and nothing else runs; with at least 24 the gate passes.  (Spec 4.4
step 1 / Testable properties 7.) -/
theorem minimo_24_observacoes (df : List Registro) (espec : String) :
    ((preparar_serie df espec).length < 24 →
      validar_minimo (preparar_serie df espec) = .error .dadosInsuficientes)
    ∧ (24 ≤ (preparar_serie df espec).length →
      validar_minimo (preparar_serie df espec) = .ok ()) := by
  constructor
  · intro h
    unfold validar_minimo
    rw [if_pos h]
  · intro h
    unfold validar_minimo
    rw [if_neg (Nat.not_lt.mpr h)]

/-- Witness for C5: an empty table prepares to an empty series, below 24. -/
theorem minimo_24_observacoes_witness :
    validar_minimo (preparar_serie [] "IPTU") = .error .dadosInsuficientes :=
  (minimo_24_observacoes [] "IPTU").1 (by decide)

/-! ### Train/test split (claim C10, Previsao_Receitas.py lines 118-121) -/

/-- `Series.max()` of a nonempty list (`0` never reached on real input). -/
def maxList : List Int → Int
  | [] => 0
  | [a] => a
  | a :: b :: t => max a (maxList (b :: t))

/-- Line 118: `df_modelo["ds"].max() - pd.DateOffset(months=12)`. -/
def corte_validacao (xs : List (MesAno × ℚ)) : Int :=
  maxList (xs.map (fun o => idx o.1)) - 12

/-- Line 120: `train = df_modelo[df_modelo["ds"] <= corte_validacao]`. -/
def treino (xs : List (MesAno × ℚ)) : List (MesAno × ℚ) :=
  xs.filter (fun o => idx o.1 ≤ corte_validacao xs)

/-- Line 121: `test = df_modelo[df_modelo["ds"] > corte_validacao]`. -/
def teste (xs : List (MesAno × ℚ)) : List (MesAno × ℚ) :=
  xs.filter (fun o => corte_validacao xs < idx o.1)

theorem le_maxList {l : List Int} {x : Int} (hx : x ∈ l) : x ≤ maxList l := by
  induction l with
  | nil => exact absurd hx (List.not_mem_nil x)
  | cons a t ih =>
    cases t with
    | nil =>
      rcases List.mem_cons.mp hx with rfl | hx2
      · exact le_refl x
      · exact absurd hx2 (List.not_mem_nil x)
    | cons b t2 =>
      rw [show maxList (a :: b :: t2) = max a (maxList (b :: t2)) from rfl]
      rcases List.mem_cons.mp hx with rfl | hx2
      · exact le_max_left ..
      · exact le_trans (ih hx2) (le_max_right ..)

theorem filter_length_partition {α : Type} (p : α → Bool) (l : List α) :
    (l.filter p).length + (l.filter (fun a => ! p a)).length = l.length := by
  induction l with
  | nil => rfl
  | cons a t ih =>
    cases hpa : p a <;> simp [List.filter_cons, hpa] <;> omega

/-- The test filter is the boolean complement of the train filter. -/
theorem teste_eq_filter_not (xs : List (MesAno × ℚ)) :
    teste xs = xs.filter (fun o => ! decide (idx o.1 ≤ corte_validacao xs)) := by
  unfold teste
  apply List.filter_congr
  intro o ho
  by_cases h : idx o.1 ≤ corte_validacao xs <;> simp [← not_le, h]

/-- **C10.** The trailing-twelve-month holdout partitions the prepared
series: the cutoff is at least every date minus twelve months, a record dated
on or before the cutoff lands in `train`, one dated strictly after lands in
`test`, none lands in both, and none is dropped.
(src/pages/Previsao_Receitas.py lines 118-121.) -/
theorem divisao_treino_teste (df : List Registro) (espec : String)
    (h : preparar_serie df espec ≠ []) :
    (∀ o ∈ preparar_serie df espec,
      idx o.1 - 12 ≤ corte_validacao (preparar_serie df espec))
    ∧ (∀ o ∈ preparar_serie df espec,
        (idx o.1 ≤ corte_validacao (preparar_serie df espec) →
          o ∈ treino (preparar_serie df espec))
        ∧ (corte_validacao (preparar_serie df espec) < idx o.1 →
          o ∈ teste (preparar_serie df espec)))
    ∧ (∀ o : MesAno × ℚ, ¬ (o ∈ treino (preparar_serie df espec)
        ∧ o ∈ teste (preparar_serie df espec)))
    ∧ (treino (preparar_serie df espec)).length + (teste (preparar_serie df espec)).length
        = (preparar_serie df espec).length := by
  refine ⟨?_, ?_, ?_, ?_⟩
  · intro o ho
    have hle : idx o.1 ≤ maxList ((preparar_serie df espec).map (fun o => idx o.1)) :=
      le_maxList (List.mem_map.mpr ⟨o, ho, rfl⟩)
    unfold corte_validacao
    omega
  · intro o ho
    constructor
    · intro hle
      exact List.mem_filter.mpr ⟨ho, by simpa using hle⟩
    · intro hlt
      exact List.mem_filter.mpr ⟨ho, by simpa using hlt⟩
  · rintro o ⟨ht, hs⟩
    have h1 := List.of_mem_filter ht
    have h2 := List.of_mem_filter hs
    simp only [decide_eq_true_eq] at h1 h2
    omega
  · rw [teste_eq_filter_not]
    exact filter_length_partition _ (preparar_serie df espec)

def serieExemplo : List Registro :=
  [{ especificacao := "IPTU", mes_ano := ⟨1, 2020⟩, valor := 5, ano := 2020 }]

/-- Witness for C10 on a one-record table. -/
theorem divisao_treino_teste_witness :
    (∀ o ∈ preparar_serie serieExemplo "IPTU",
      idx o.1 - 12 ≤ corte_validacao (preparar_serie serieExemplo "IPTU"))
    ∧ (∀ o ∈ preparar_serie serieExemplo "IPTU",
        (idx o.1 ≤ corte_validacao (preparar_serie serieExemplo "IPTU") →
          o ∈ treino (preparar_serie serieExemplo "IPTU"))
        ∧ (corte_validacao (preparar_serie serieExemplo "IPTU") < idx o.1 →
          o ∈ teste (preparar_serie serieExemplo "IPTU")))
    ∧ (∀ o : MesAno × ℚ, ¬ (o ∈ treino (preparar_serie serieExemplo "IPTU")
        ∧ o ∈ teste (preparar_serie serieExemplo "IPTU")))
    ∧ (treino (preparar_serie serieExemplo "IPTU")).length
        + (teste (preparar_serie serieExemplo "IPTU")).length
        = (preparar_serie serieExemplo "IPTU").length :=
  divisao_treino_teste serieExemplo "IPTU" (by decide)

/-! ### Output clipping (claim C6, Previsao_Receitas.py lines 161-163 and
info.previsao.py lines 245-247) -/

/-- One row of the model's raw prediction frame. -/
structure Previsao where
  yhat : ℚ
  yhat_lower : ℚ
  yhat_upper : ℚ
deriving DecidableEq, Repr

/-- `Series.clip(lower=0)` on one value. -/
def clipZero (x : ℚ) : ℚ := max x 0

/-- Previsao_Receitas.py lines 161-163 (log mode): apply `np.expm1` to the
point estimate and both bounds, then clip each at zero.  The inverse
transform is passed as a function, since `expm1` is transcendental. -/
def reverterLogEClipar (expm1 : ℚ → ℚ) (ps : List Previsao) : List Previsao :=
  ps.map (fun p => ⟨clipZero (expm1 p.yhat), clipZero (expm1 p.yhat_lower),
    clipZero (expm1 p.yhat_upper)⟩)

/-- info.previsao.py lines 245-247 (linear mode): clip each output at zero. -/
def cliparPrevisoes (ps : List Previsao) : List Previsao :=
  ps.map (fun p => ⟨clipZero p.yhat, clipZero p.yhat_lower, clipZero p.yhat_upper⟩)

/-- **C6.** Every returned forecast row — in log mode after the `expm1`
inverse transform, and in linear mode — has a nonnegative point estimate,
lower bound, and upper bound.  (Spec 4.4 steps 4-5 / Testable properties 6.) -/
theorem previsoes_nao_negativas (expm1 : ℚ → ℚ) (ps : List Previsao) :
    (∀ p ∈ reverterLogEClipar expm1 ps,
      0 ≤ p.yhat ∧ 0 ≤ p.yhat_lower ∧ 0 ≤ p.yhat_upper)
    ∧ ∀ p ∈ cliparPrevisoes ps,
      0 ≤ p.yhat ∧ 0 ≤ p.yhat_lower ∧ 0 ≤ p.yhat_upper := by
  constructor
  · intro p hp
    simp only [reverterLogEClipar, List.mem_map] at hp
    obtain ⟨q, -, rfl⟩ := hp
    exact ⟨le_max_right .., le_max_right .., le_max_right ..⟩
  · intro p hp
    simp only [cliparPrevisoes, List.mem_map] at hp
    obtain ⟨q, -, rfl⟩ := hp
    exact ⟨le_max_right .., le_max_right .., le_max_right ..⟩

/-- Witness for C6 on a row with negative raw outputs. -/
theorem previsoes_nao_negativas_witness :
    (∀ p ∈ reverterLogEClipar (fun x => x - 1) [⟨-5, -3, 2⟩],
      0 ≤ p.yhat ∧ 0 ≤ p.yhat_lower ∧ 0 ≤ p.yhat_upper)
    ∧ ∀ p ∈ cliparPrevisoes [⟨-5, -3, 2⟩],
      0 ≤ p.yhat ∧ 0 ≤ p.yhat_lower ∧ 0 ≤ p.yhat_upper :=
  previsoes_nao_negativas (fun x => x - 1) [⟨-5, -3, 2⟩]

/-! ### MAPE (claim C9, Previsao_Receitas.py lines 189-196 and
info.previsao.py lines 280-288) -/

/-- The guarded MAPE: mask the zero ground truths, average the absolute
percentage errors over the rest, `NaN` (modelled `none`) when the mask is
empty. -/
def calcular_mape (pares : List (ℚ × ℚ)) : Option ℚ :=
  let nz := pares.filter (fun p => p.1 ≠ 0)
  if 0 < nz.length then
    some ((nz.map (fun p => |(p.1 - p.2) / p.1|)).sum / nz.length * 100)
  else none

/-- **C9.** The MAPE of a non-empty joined validation set depends only on
the pairs with nonzero ground truth — dropping the zero-truth pairs changes
nothing, so no division by zero contributes — and when every ground truth is
zero the MAPE is `NaN` rather than an error.  (Spec 4.4 step 6.) -/
theorem mape_ignora_zeros (pares : List (ℚ × ℚ)) (h : pares ≠ []) :
    calcular_mape pares = calcular_mape (pares.filter (fun p => p.1 ≠ 0))
    ∧ ((∀ p ∈ pares, p.1 = 0) → calcular_mape pares = none) := by
  constructor
  · unfold calcular_mape
    have hff : (pares.filter (fun p => p.1 ≠ 0)).filter (fun p => p.1 ≠ 0) =
        pares.filter (fun p => p.1 ≠ 0) := by
      apply List.filter_eq_self.mpr
      intro a ha
      exact (List.mem_filter.mp ha).2
    rw [hff]
  · intro hz
    unfold calcular_mape
    have hnil : pares.filter (fun p => p.1 ≠ 0) = [] := by
      rw [List.filter_eq_nil_iff]
      intro a ha
      simp [hz a ha]
    rw [hnil]
    rfl

/-- Witness for C9 on a mixed set and by consequence on its nonzero part. -/
theorem mape_ignora_zeros_witness :
    calcular_mape [((0 : ℚ), (5 : ℚ)), (2, 1)] =
      calcular_mape ([((0 : ℚ), (5 : ℚ)), (2, 1)].filter (fun p => p.1 ≠ 0))
    ∧ ((∀ p ∈ [((0 : ℚ), (5 : ℚ)), (2, 1)], p.1 = 0) →
        calcular_mape [((0 : ℚ), (5 : ℚ)), (2, 1)] = none) :=
  mape_ignora_zeros [((0 : ℚ), (5 : ℚ)), (2, 1)] (by simp)

end RCL
